import Mathlib

/-!
Verification development for the artemis scan-orchestration engine
(src/main.py). The Python source is shallowly embedded: pure helpers become
Lean functions, the mutable per-run state (the Commands-Ran set, the
pattern-match map, the manual-steps set, the detected-services set, the log
files and the file system) is passed explicitly, and Python exceptions
become `Except` values.
-/

/-- Boolean membership of a string in a list of strings; models the Python
`in` test on the engine's string sets (`self.commands_ran`,
`self.manual_scans`, `pattern_description_shown`, ...). -/
def strMem (a : String) : List String → Bool
  | [] => false
  | b :: t => if b = a then true else strMem a t

/-- The opening-brace character of a Python `str.format` replacement field. -/
def lbrace : Char := Char.ofNat 123

/-- The closing-brace character of a Python `str.format` replacement field. -/
def rbrace : Char := Char.ofNat 125

/-- Lookup in a template context; models Python dict lookup for the keyword
arguments passed to `str.format(**data)` (keys are unique, first hit wins). -/
def lookupCtx (ctx : List (String × String)) (key : String) : Option String :=
  match ctx with
  | [] => none
  | (k, v) :: rest => if k = key then some v else lookupCtx rest key

/-- Scanner state of the `str.format` model: plain text, just after an
opening brace, just after a closing brace, or inside a replacement field
accumulating the (reversed) field name. -/
inductive FmtMode where
  | text
  | sawOpen
  | sawClose
  | field (acc : List Char)
deriving DecidableEq

/-- One-character-at-a-time model of Python `str.format` over simple
`\x7bname\x7d` replacement fields: doubled braces are literals, a field name is
looked up in the context, a missing name is a `KeyError` (the engine's
`MissingVariable` condition), and stray or unterminated braces are
`ValueError`s. Conversion and format specs (`!r`, `:>10`) are not modelled;
the engine's configured templates use plain names only. -/
def fmtStep (ctx : List (String × String)) : FmtMode → List Char → Except String (List Char)
  | FmtMode.text, [] => Except.ok []
  | FmtMode.text, c :: rest =>
    if c = lbrace then fmtStep ctx FmtMode.sawOpen rest
    else if c = rbrace then fmtStep ctx FmtMode.sawClose rest
    else
      match fmtStep ctx FmtMode.text rest with
      | Except.error e => Except.error e
      | Except.ok out => Except.ok (c :: out)
  | FmtMode.sawOpen, [] => Except.error "ValueError: single open brace"
  | FmtMode.sawOpen, c :: rest =>
    if c = lbrace then
      match fmtStep ctx FmtMode.text rest with
      | Except.error e => Except.error e
      | Except.ok out => Except.ok (lbrace :: out)
    else if c = rbrace then
      match lookupCtx ctx "" with
      | none => Except.error "KeyError: "
      | some v =>
        match fmtStep ctx FmtMode.text rest with
        | Except.error e => Except.error e
        | Except.ok out => Except.ok (v.data ++ out)
    else fmtStep ctx (FmtMode.field [c]) rest
  | FmtMode.sawClose, [] => Except.error "ValueError: single close brace"
  | FmtMode.sawClose, c :: rest =>
    if c = rbrace then
      match fmtStep ctx FmtMode.text rest with
      | Except.error e => Except.error e
      | Except.ok out => Except.ok (rbrace :: out)
    else Except.error "ValueError: single close brace"
  | FmtMode.field _, [] => Except.error "ValueError: unterminated replacement field"
  | FmtMode.field acc, c :: rest =>
    if c = rbrace then
      match lookupCtx ctx (String.mk acc.reverse) with
      | none => Except.error ("KeyError: " ++ String.mk acc.reverse)
      | some v =>
        match fmtStep ctx FmtMode.text rest with
        | Except.error e => Except.error e
        | Except.ok out => Except.ok (v.data ++ out)
    else if c = lbrace then Except.error "ValueError: unexpected open brace in field name"
    else fmtStep ctx (FmtMode.field (c :: acc)) rest

/-- Python `template.format(**ctx)` as used throughout src/main.py
(lines 238, 274, 328). -/
def pyFormat (template : String) (ctx : List (String × String)) : Except String String :=
  match fmtStep ctx FmtMode.text template.data with
  | Except.error e => Except.error e
  | Except.ok out => Except.ok (String.mk out)

/-- The replacement-field names a template mentions, collected by the same
scan `fmtStep` performs (a malformed tail contributes nothing). -/
def placeholdersStep : FmtMode → List Char → List String
  | _, [] => []
  | FmtMode.text, c :: rest =>
    if c = lbrace then placeholdersStep FmtMode.sawOpen rest
    else if c = rbrace then placeholdersStep FmtMode.sawClose rest
    else placeholdersStep FmtMode.text rest
  | FmtMode.sawOpen, c :: rest =>
    if c = lbrace then placeholdersStep FmtMode.text rest
    else if c = rbrace then "" :: placeholdersStep FmtMode.text rest
    else placeholdersStep (FmtMode.field [c]) rest
  | FmtMode.sawClose, c :: rest =>
    if c = rbrace then placeholdersStep FmtMode.text rest else []
  | FmtMode.field acc, c :: rest =>
    if c = rbrace then String.mk acc.reverse :: placeholdersStep FmtMode.text rest
    else if c = lbrace then []
    else placeholdersStep (FmtMode.field (c :: acc)) rest

/-- The placeholder names of a command or description template. -/
def placeholders (template : String) : List String :=
  placeholdersStep FmtMode.text template.data

/-- ASCII lowering of one character; models Python `str.lower` per
character for the ASCII command text the engine handles. -/
def charLower (c : Char) : Char :=
  if 65 ≤ c.toNat && c.toNat ≤ 90 then Char.ofNat (c.toNat + 32) else c

/-- Models Python `str.lower` (ASCII). -/
def lowerStr (s : String) : String := String.mk (s.data.map charLower)

/-- Splitter for `shlex_split`: accumulates the current fragment
(reversed) and breaks on spaces. -/
def shlex_split_chars (current : List Char) : List Char → List String
  | [] => if current.isEmpty then [] else [String.mk current.reverse]
  | c :: rest =>
    if c = ' ' then
      if current.isEmpty then shlex_split_chars [] rest
      else String.mk current.reverse :: shlex_split_chars [] rest
    else shlex_split_chars (c :: current) rest

/-- Models `shlex.split` for the quote-free commands the engine builds:
whitespace-separated fragments. -/
def shlex_split (command : String) : List String :=
  shlex_split_chars [] command.data

/-- The fragment scan inside `Utils.determine_output_file`
(src/main.py lines 60-70): the first fragment whose lowering is one of the
output-file options and which has a successor yields that successor; an
option in final position is skipped (`continue` past the end of the loop). -/
def find_output_file_in_fragments (options : List String) : List String → Option String
  | [] => none
  | fragment :: rest =>
    if strMem (lowerStr fragment) options then
      match rest with
      | [] => none
      | next :: _ => some next
    else find_output_file_in_fragments options rest

/-- `Utils.determine_output_file` (src/main.py lines 50-70): parse the
command for its output file, or `none` when it cannot be determined. -/
def determine_output_file (command : String) (options_associated_with_output_file : List String) :
    Option String :=
  find_output_file_in_fragments options_associated_with_output_file (shlex_split command)

/-- `Utils.should_run_command` (src/main.py lines 73-85). The file system is
modelled as the list `fs` of paths for which `os.path.isfile` is true. -/
def should_run_command (fs : List String) (command_output_file : Option String) : Bool :=
  match command_output_file with
  | none => true
  | some f => !(strMem f fs)

/-- Whether a command is part of primary or secondary enumeration
(the `_type` argument of `Artemis.process_enumeration_command`). -/
inductive CmdType where
  | primary
  | secondary
deriving DecidableEq

/-- The `output_file_flags` table of `Artemis.process_enumeration_command`
(src/main.py lines 332-335). -/
def output_file_flags : CmdType → List String
  | CmdType.primary => ["-ox"]
  | CmdType.secondary => ["-on", "tee", "-o", "--simple-report"]

/-- The observable outcome of one `process_enumeration_command` invocation:
the Commands-Ran set afterwards, the rendered command that was executed via
`run_command` (`none` when nothing ran; the shell line actually spawned is
`"sudo " ++` this command), the output file handed to
`record_pattern_matches` (`none` when pattern matching was not reached), and
the output file handed to `secondary_enumerate` (`none` for secondary
commands and when no file was determined). -/
structure PecOutcome where
  commandsRan : List String
  executed : Option String
  patternScan : Option String
  secondary : Option String
deriving DecidableEq

/-- The body of `Artemis.process_enumeration_command` after the command has
been rendered (src/main.py lines 329-350): return unchanged when the
rendered command is already in the Commands-Ran set; otherwise determine the
output file, and when `should_run_command` allows it insert the command into
the set and execute; finally, whenever an output file was determined, feed
it to pattern matching, and to service discovery for primary commands. -/
def pec_core (commandsRan fs : List String) (cmd : String) (ty : CmdType) : PecOutcome :=
  if strMem cmd commandsRan then
    { commandsRan := commandsRan, executed := none, patternScan := none, secondary := none }
  else
    let output_file := determine_output_file cmd (output_file_flags ty)
    if should_run_command fs output_file then
      { commandsRan := cmd :: commandsRan,
        executed := some cmd,
        patternScan := output_file,
        secondary := if ty = CmdType.primary then output_file else none }
    else
      { commandsRan := commandsRan,
        executed := none,
        patternScan := output_file,
        secondary := if ty = CmdType.primary then output_file else none }

/-- `Artemis.process_enumeration_command` (src/main.py lines 318-350):
render the command template against the service data — a missing context
entry propagates as an error aborting this unit of work — then run the gate
and post-processing logic of `pec_core`. -/
def process_enumeration_command (commandsRan fs : List String) (command : String)
    (service_data : List (String × String)) (ty : CmdType) : Except String PecOutcome :=
  match pyFormat command service_data with
  | Except.error e => Except.error e
  | Except.ok cmd => Except.ok (pec_core commandsRan fs cmd ty)

/-- Program points of one dispatcher thread inside
`process_enumeration_command`, at the atomicity granularity the source
actually provides: the membership test on `self.commands_ran`
(src/main.py line 329) and the gate-insert-execute region (lines 332-343)
are separate steps, because `self.thread_lock` is never held around them
(the lock is acquired only inside the printing and logging helpers) and the
code between them makes blocking calls (`shlex.split`, `os.path.isfile`),
so a thread can be preempted after the test and before the insert. -/
inductive WorkerPc where
  | atCheck
  | atGate
  | finished (executed : Bool)
deriving DecidableEq

/-- One dispatcher thread processing a command: the rendered command text
(rendering at line 328 is thread-local), the file-system snapshot the
thread observes, the command class, and its current program point. -/
structure Worker where
  cmd : String
  fs : List String
  ty : CmdType
  pc : WorkerPc
deriving DecidableEq

/-- Advance one thread by one atomic region against the shared
Commands-Ran set. The `atCheck` step is line 329's membership test (on a
hit the thread returns without executing); the `atGate` step is
lines 332-342: determine the output file and, when `should_run_command`
allows, insert the rendered command into the set and execute it. Each model
step is one contiguous region of source code executed by one thread, so
every trace of this model corresponds to a realizable thread schedule of
the program (which interleaves even more finely). -/
def stepWorker (commandsRan : List String) (w : Worker) : List String × Worker :=
  match w.pc with
  | WorkerPc.atCheck =>
    if strMem w.cmd commandsRan then (commandsRan, { w with pc := WorkerPc.finished false })
    else (commandsRan, { w with pc := WorkerPc.atGate })
  | WorkerPc.atGate =>
    if should_run_command w.fs (determine_output_file w.cmd (output_file_flags w.ty)) then
      (w.cmd :: commandsRan, { w with pc := WorkerPc.finished true })
    else (commandsRan, { w with pc := WorkerPc.finished false })
  | WorkerPc.finished _ => (commandsRan, w)

/-- Run a thread schedule: at each step the thread with the given index
advances by one atomic region (indices out of range are skipped). -/
def runSchedule (commandsRan : List String) (workers : List Worker) :
    List Nat → List String × List Worker
  | [] => (commandsRan, workers)
  | i :: rest =>
    match workers[i]? with
    | none => runSchedule commandsRan workers rest
    | some w =>
      let p := stepWorker commandsRan w
      runSchedule p.1 (workers.set i p.2) rest

/-- How many threads finished having executed the rendered command `c`. -/
def executedCount (c : String) : List Worker → Nat
  | [] => 0
  | w :: rest =>
    (if w.cmd = c ∧ w.pc = WorkerPc.finished true then 1 else 0) + executedCount c rest

/-- A dispatcher thread for the rendered secondary command
"probe 10.0.0.1:80" (no determinable output file, so the gate always says
RUN), about to run the membership test. -/
def raceWorker : Worker :=
  { cmd := "probe 10.0.0.1:80", fs := [], ty := CmdType.secondary, pc := WorkerPc.atCheck }

/-- Does the character list start with the given needle? -/
def listStartsWith : List Char → List Char → Bool
  | [], _ => true
  | _ :: _, [] => false
  | a :: as, b :: bs => if a = b then listStartsWith as bs else false

/-- Does the needle occur as a contiguous sublist? -/
def containsSub (needle : List Char) : List Char → Bool
  | [] => needle.isEmpty
  | c :: rest => if listStartsWith needle (c :: rest) then true else containsSub needle rest

/-- Model of a Python `re.Match` object: `string` is the whole text that was
searched (Python `match.string`), `group0` the substring the pattern
actually matched (Python `match.group(0)`). -/
structure ReMatch where
  string : String
  group0 : String
deriving DecidableEq

/-- Models `re.search` restricted to literal, metacharacter-free patterns:
such a pattern matches iff it occurs as a substring of the text, `.string`
is the searched text and `.group0` the literal itself. -/
def re_search (pattern text : String) : Option ReMatch :=
  if containsSub pattern.data text.data then some { string := text, group0 := pattern } else none

/-- `Utils.extract_matching_string` (src/main.py lines 87-99): searches for
the regex in the lowered text and, despite its docstring, returns
`match.string` — the entire lowered text — rather than the matched
substring. -/
def extract_matching_string (regex text : String) : Option String :=
  match re_search regex (lowerStr text) with
  | some m => some m.string
  | none => none

/-- One pattern definition from configuration: a description template and a
regex (src/main.py `pattern['description']`, `pattern['pattern']`). -/
structure ScanPattern where
  description : String
  pattern : String
deriving DecidableEq

/-- Python `set.add` on the engine's ordered-list model of a string set. -/
def setAdd (s : List String) (x : String) : List String :=
  if strMem x s then s else s ++ [x]

/-- Adding a description to `self.pattern_matches[output_file]`
(src/main.py lines 275-278): extend the file's description set, creating the
entry when the file is new. -/
def addMatch : List (String × List String) → String → String → List (String × List String)
  | [], output_file, desc => [(output_file, [desc])]
  | (f, ds) :: rest, output_file, desc =>
    if f = output_file then (f, setAdd ds desc) :: rest
    else (f, ds) :: addMatch rest output_file desc

/-- The inner pattern loop of `Artemis.record_pattern_matches`
(src/main.py lines 269-278) for one line of the output file: lower the
pattern's regex, search the line, and on a (non-empty, hence truthy) match
render the description template with the context extended by the matched
value; a missing description variable propagates as an error. -/
def recordLinePatterns (service_data : List (String × String)) (output_file line : String) :
    List ScanPattern → List (String × List String) → Except String (List (String × List String))
  | [], pm => Except.ok pm
  | p :: ps, pm =>
    match extract_matching_string (lowerStr p.pattern) line with
    | none => recordLinePatterns service_data output_file line ps pm
    | some m =>
      if m.isEmpty then recordLinePatterns service_data output_file line ps pm
      else
        match pyFormat p.description (service_data ++ [("match", m)]) with
        | Except.error e => Except.error e
        | Except.ok desc =>
          recordLinePatterns service_data output_file line ps (addMatch pm output_file desc)

/-- The line loop of `Artemis.record_pattern_matches`
(src/main.py lines 267-278). -/
def recordLines (service_data : List (String × String)) (output_file : String)
    (patterns_to_search : List ScanPattern) :
    List String → List (String × List String) → Except String (List (String × List String))
  | [], pm => Except.ok pm
  | line :: rest, pm =>
    match recordLinePatterns service_data output_file line patterns_to_search pm with
    | Except.error e => Except.error e
    | Except.ok pm2 => recordLines service_data output_file patterns_to_search rest pm2

/-- `Artemis.record_pattern_matches` (src/main.py lines 248-279): choose
declared patterns plus the universal set when the context carries a port
(secondary scans), declared patterns only otherwise; do nothing when the
combined list is empty; otherwise scan the file's lines and return the
updated pattern-match map (the subsequent `log_recorded_patterns` call is
modelled separately). -/
def record_pattern_matches (universal_patterns : List ScanPattern)
    (pattern_matches : List (String × List String)) (output_file : String)
    (file_lines : List String) (patterns : List ScanPattern)
    (service_data : List (String × String)) : Except String (List (String × List String)) :=
  let patterns_to_search :=
    if (lookupCtx service_data "port").isSome then patterns ++ universal_patterns
    else patterns
  if patterns_to_search.length = 0 then Except.ok pattern_matches
  else recordLines service_data output_file patterns_to_search file_lines pattern_matches

/-- The descriptions of one file the rewrite actually prints
(src/main.py lines 296-301): those not yet in `pattern_description_shown`,
in iteration order. -/
def printedForFile (shown : List String) : List String → List String
  | [] => []
  | d :: ds =>
    if strMem d shown then printedForFile shown ds
    else d :: printedForFile (d :: shown) ds

/-- The `pattern_description_shown` set after one file's descriptions have
been processed (same loop as `printedForFile`). -/
def shownAfter (shown : List String) : List String → List String
  | [] => shown
  | d :: ds =>
    if strMem d shown then shownAfter shown ds
    else shownAfter (d :: shown) ds

/-- The file loop of `Artemis.log_recorded_patterns`
(src/main.py lines 293-305): a block is written for a file only when it
still has an unprinted description; each block carries the descriptions
printed for that file. -/
def log_recorded_patterns_go (shown : List String) :
    List (String × List String) → List (String × List String)
  | [] => []
  | (file, ds) :: rest =>
    if (printedForFile shown ds).isEmpty then
      log_recorded_patterns_go (shownAfter shown ds) rest
    else (file, printedForFile shown ds) :: log_recorded_patterns_go (shownAfter shown ds) rest

/-- `Artemis.log_recorded_patterns` (src/main.py lines 281-306): when the
pattern-match map is non-empty the pattern log is truncated and rewritten;
the result lists the written blocks, each a file with the descriptions
printed under it (each description rendered as one tab-indented line under
the file's header in the real log). An empty map leaves the log untouched
(and would contribute no blocks anyway). -/
def log_recorded_patterns (pattern_matches : List (String × List String)) :
    List (String × List String) :=
  if pattern_matches.isEmpty then []
  else log_recorded_patterns_go [] pattern_matches

/-- Every description printed anywhere in a pattern-log rewrite, in order. -/
def allPrintedDescs : List (String × List String) → List String
  | [] => []
  | b :: rest => b.2 ++ allPrintedDescs rest

/-- One manual-step entry from configuration: a description plus command
templates (src/main.py `sub_scan['description']`, `sub_scan['commands']`). -/
structure ManualScan where
  description : String
  commands : List String

/-- The command loop of `Artemis.log_manual_steps`
(src/main.py lines 237-243): render each command template; commands already
in the global `self.manual_scans` set are skipped, new ones are added to the
set and to the message, and `wrote_command` records whether anything new
appeared. -/
def render_manual_commands (manual_scans_state : List String)
    (service_scan_data : List (String × String)) :
    List String → Except String (String × List String × Bool)
  | [] => Except.ok ("", manual_scans_state, false)
  | c :: cs =>
    match pyFormat c service_scan_data with
    | Except.error e => Except.error e
    | Except.ok cmd =>
      if strMem cmd manual_scans_state then
        render_manual_commands manual_scans_state service_scan_data cs
      else
        match render_manual_commands (cmd :: manual_scans_state) service_scan_data cs with
        | Except.error e => Except.error e
        | Except.ok (msg, s2, _) => Except.ok ("\t" ++ cmd ++ "\n" ++ msg, s2, true)

/-- The sub-scan loop of `Artemis.log_manual_steps`
(src/main.py lines 233-245): for each entry, a block
(description header plus its new command lines, terminated by a blank line)
is emitted only when at least one new command was rendered. Returns the text
written during this recording event and the updated manual-scans set. -/
def log_manual_steps_go (manual_scans_state : List String)
    (service_scan_data : List (String × String)) :
    List ManualScan → Except String (String × List String)
  | [] => Except.ok ("", manual_scans_state)
  | sub :: rest =>
    match render_manual_commands manual_scans_state service_scan_data sub.commands with
    | Except.error e => Except.error e
    | Except.ok (msg, s2, wrote) =>
      match log_manual_steps_go s2 service_scan_data rest with
      | Except.error e => Except.error e
      | Except.ok (tail, s3) =>
        if wrote then Except.ok ("[*] " ++ sub.description ++ "\n" ++ msg ++ "\n\n" ++ tail, s3)
        else Except.ok (tail, s3)

/-- `Artemis.log_manual_steps` (src/main.py lines 224-246): the log file is
opened in append mode (`open(self.manual_steps_log, 'a')`), so the new file
content is the previous content followed by whatever this recording event
wrote. A rendering error aborts the event. -/
def log_manual_steps (log_content : String) (manual_scans_state : List String)
    (manual_scans : List ManualScan) (service_scan_data : List (String × String)) :
    Except String (String × List String) :=
  match log_manual_steps_go manual_scans_state service_scan_data manual_scans with
  | Except.error e => Except.error e
  | Except.ok (written, s2) => Except.ok (log_content ++ written, s2)

/-- The `service` element of one port entry in the nmap XML result:
its `name` attribute and its child nodes as `contents` (what BeautifulSoup's
`x in tag` membership test inspects). -/
structure ServiceTag where
  name : String
  contents : List String
deriving DecidableEq

/-- One `port` element of the nmap XML result, with the attributes and the
nested state/service the engine reads. -/
structure PortTag where
  portid : String
  protocol : String
  state : String
  service : ServiceTag
deriving DecidableEq

/-- The host-level values `Artemis.secondary_enumerate` merges into every
service context: `self.nmap_extra`, `self.scan_directory`, `self.address`
and the two wordlists from the service-scan configuration. -/
structure HostConfig where
  nmap_extra : String
  scan_directory : String
  address : String
  username_wordlist : String
  password_wordlist : String

/-- BeautifulSoup's `x in tag` membership test on the service element:
containment in the tag's child contents. -/
def tag_contains (t : ServiceTag) (x : String) : Bool := strMem x t.contents

/-- The `service_scan_data` template context built per non-closed port by
`Artemis.secondary_enumerate` (src/main.py lines 372-383). The Python
booleans `True`/`False` stored under `secure` appear here as the strings
they render to. -/
def build_service_scan_data (cfg : HostConfig) (port : PortTag) : List (String × String) :=
  [("nmap_extra", cfg.nmap_extra),
   ("scandir", cfg.scan_directory),
   ("address", cfg.address),
   ("port", port.portid),
   ("protocol", port.protocol),
   ("name", port.service.name),
   ("username_wordlist", cfg.username_wordlist),
   ("password_wordlist", cfg.password_wordlist),
   ("secure", if tag_contains port.service "ssl" || tag_contains port.service "tls"
              then "True" else "False"),
   ("scheme", if tag_contains port.service "https" || tag_contains port.service "ssl" ||
                 tag_contains port.service "tls"
              then "https" else "http")]

/-- The Detected Service entry `Artemis.secondary_enumerate` records for a
non-closed port (src/main.py lines 385-387). -/
def detected_service_entry (port : PortTag) : String :=
  "[*] " ++ port.portid ++ "/" ++ port.protocol ++ ": " ++ port.service.name ++
    "    (" ++ port.state ++ ")"

/-- The detected-services accumulation of the port loop in
`Artemis.secondary_enumerate` (src/main.py lines 366-387): closed ports are
skipped, every other port's entry is added to the set. -/
def secondary_enumerate_detected (detected : List String) : List PortTag → List String
  | [] => detected
  | port :: rest =>
    if port.state = "closed" then secondary_enumerate_detected detected rest
    else secondary_enumerate_detected (setAdd detected (detected_service_entry port)) rest

/-- Bridge between the boolean set-membership model and propositional
membership. -/
theorem strMem_iff (a : String) (l : List String) : strMem a l = true ↔ a ∈ l := by
  induction l with
  | nil => simp [strMem]
  | cons b t ih =>
    by_cases h : b = a
    · subst h; simp [strMem]
    · have h2 : ¬(a = b) := fun hh => h hh.symm
      simp [strMem, h, h2, ih, List.mem_cons]

/-- A string reported absent by `strMem` is not a member. -/
theorem strMem_false_not_mem (a : String) (l : List String) (h : strMem a l = false) :
    ¬ a ∈ l := by
  intro hm
  rw [(strMem_iff a l).mpr hm] at h
  cases h

/-- The dedup branch of the gate: a command already in the Commands-Ran set
leaves the state unchanged and triggers nothing. -/
theorem pec_core_of_mem (ran fs : List String) (cmd : String) (ty : CmdType)
    (h : strMem cmd ran = true) :
    pec_core ran fs cmd ty =
      { commandsRan := ran, executed := none, patternScan := none, secondary := none } := by
  simp [pec_core, h]

/-- The run branch of the gate. -/
theorem pec_core_of_run (ran fs : List String) (cmd : String) (ty : CmdType)
    (h : strMem cmd ran = false)
    (h2 : should_run_command fs (determine_output_file cmd (output_file_flags ty)) = true) :
    pec_core ran fs cmd ty =
      { commandsRan := cmd :: ran, executed := some cmd,
        patternScan := determine_output_file cmd (output_file_flags ty),
        secondary := if ty = CmdType.primary
                     then determine_output_file cmd (output_file_flags ty) else none } := by
  simp [pec_core, h, h2]

/-- The skip branch of the gate (output file already on disk). -/
theorem pec_core_of_skip (ran fs : List String) (cmd : String) (ty : CmdType)
    (h : strMem cmd ran = false)
    (h2 : should_run_command fs (determine_output_file cmd (output_file_flags ty)) = false) :
    pec_core ran fs cmd ty =
      { commandsRan := ran, executed := none,
        patternScan := determine_output_file cmd (output_file_flags ty),
        secondary := if ty = CmdType.primary
                     then determine_output_file cmd (output_file_flags ty) else none } := by
  simp [pec_core, h, h2]

/-- Membership in the Commands-Ran set survives one gate step. -/
theorem pec_core_mem_preserved (ran fs : List String) (cmd c : String) (ty : CmdType)
    (h : c ∈ ran) : c ∈ (pec_core ran fs cmd ty).commandsRan := by
  cases hq : strMem cmd ran
  · cases hs : should_run_command fs (determine_output_file cmd (output_file_flags ty))
    · rw [pec_core_of_skip ran fs cmd ty hq hs]; exact h
    · rw [pec_core_of_run ran fs cmd ty hq hs]; exact List.mem_cons_of_mem _ h
  · rw [pec_core_of_mem ran fs cmd ty hq]; exact h

/-- A command executed by one gate step is in the resulting Commands-Ran
set. -/
theorem pec_core_executed_mem (ran fs : List String) (cmd c : String) (ty : CmdType)
    (h : (pec_core ran fs cmd ty).executed = some c) :
    c ∈ (pec_core ran fs cmd ty).commandsRan := by
  cases hq : strMem cmd ran
  · cases hs : should_run_command fs (determine_output_file cmd (output_file_flags ty))
    · rw [pec_core_of_skip ran fs cmd ty hq hs] at h; cases h
    · rw [pec_core_of_run ran fs cmd ty hq hs] at h ⊢
      simp at h
      simp [h]
  · rw [pec_core_of_mem ran fs cmd ty hq] at h; cases h

/-- A command executed by one gate step was not already in the
Commands-Ran set. -/
theorem pec_core_executed_not_mem (ran fs : List String) (cmd c : String) (ty : CmdType)
    (h : (pec_core ran fs cmd ty).executed = some c) : ¬ c ∈ ran := by
  cases hq : strMem cmd ran
  · cases hs : should_run_command fs (determine_output_file cmd (output_file_flags ty))
    · rw [pec_core_of_skip ran fs cmd ty hq hs] at h; cases h
    · rw [pec_core_of_run ran fs cmd ty hq hs] at h
      simp at h
      subst h
      exact strMem_false_not_mem _ _ hq
  · rw [pec_core_of_mem ran fs cmd ty hq] at h; cases h

/-- Claim C1, code evaluated at the failing schedule: two dispatcher
threads whose rendered command text is identical both pass the line-329
membership test before either reaches the line-338 insert, and then both
insert and execute — the same rendered command is executed twice in one
run, so the claimed at-most-once guarantee does not hold of the code (the
test and the insert are not atomic: `self.thread_lock` is never held
around them). Under the sequential schedule, where the first thread
completes before the second starts, the command is executed only once. -/
theorem C1_race_both_execute :
    executedCount "probe 10.0.0.1:80"
      (runSchedule [] [raceWorker, raceWorker] [0, 1, 0, 1]).2 = 2 ∧
    executedCount "probe 10.0.0.1:80"
      (runSchedule [] [raceWorker, raceWorker] [0, 0, 1, 1]).2 = 1 := ⟨rfl, rfl⟩

/-- Claim C2: the command gate's decision — with no determinable output
file the command runs (nothing to cache against); with a determined output
file it runs exactly when that file is not on disk. -/
theorem C2_gate_runs_iff_output_file_absent (fs : List String) (command : String)
    (options : List String) :
    (determine_output_file command options = none →
      should_run_command fs (determine_output_file command options) = true) ∧
    (∀ f, determine_output_file command options = some f →
      (should_run_command fs (determine_output_file command options) = true ↔
        strMem f fs = false)) := by
  constructor
  · intro h; rw [h]; rfl
  · intro f h
    rw [h]
    cases hc : strMem f fs <;> simp [should_run_command, hc]

/-- Witness for C2 at a concrete command. -/
theorem C2_witness :
    determine_output_file "nmap -oX scan.xml 10.0.0.1" ["-ox"] = some "scan.xml" ∧
    should_run_command [] (determine_output_file "nmap -oX scan.xml 10.0.0.1" ["-ox"]) = true :=
  ⟨rfl,
   ((C2_gate_runs_iff_output_file_absent [] "nmap -oX scan.xml 10.0.0.1" ["-ox"]).2
     "scan.xml" rfl).mpr rfl⟩

/-- Claim C3: when the determined output file already exists at gate time,
the command is not executed and the Commands-Ran set is untouched, yet the
file is still fed to pattern matching, and to service discovery when the
command is primary. -/
theorem C3_existing_output_still_postprocessed (ran fs : List String) (command : String)
    (service_data : List (String × String)) (ty : CmdType) (cmd f : String)
    (h1 : pyFormat command service_data = Except.ok cmd)
    (h2 : strMem cmd ran = false)
    (h3 : determine_output_file cmd (output_file_flags ty) = some f)
    (h4 : strMem f fs = true) :
    process_enumeration_command ran fs command service_data ty =
      Except.ok { commandsRan := ran, executed := none, patternScan := some f,
                  secondary := if ty = CmdType.primary then some f else none } := by
  have hs : should_run_command fs (determine_output_file cmd (output_file_flags ty)) = false := by
    rw [h3]; simp [should_run_command, h4]
  unfold process_enumeration_command
  rw [h1]
  show Except.ok (pec_core ran fs cmd ty) = _
  rw [pec_core_of_skip ran fs cmd ty h2 hs, h3]

/-- Witness for C3 at a concrete primary command whose XML output already
exists. -/
theorem C3_witness :
    process_enumeration_command [] ["scan.xml"] "nmap -oX scan.xml {address}"
        [("address", "10.0.0.1")] CmdType.primary =
      Except.ok { commandsRan := [], executed := none, patternScan := some "scan.xml",
                  secondary := some "scan.xml" } := by
  have h := C3_existing_output_still_postprocessed [] ["scan.xml"] "nmap -oX scan.xml {address}"
    [("address", "10.0.0.1")] CmdType.primary "nmap -oX scan.xml 10.0.0.1" "scan.xml"
    rfl rfl rfl rfl
  simpa using h

/-- Claim C10: an invocation whose rendered command is already in the
Commands-Ran set returns immediately with nothing changed — no execution,
no pattern matching, no service discovery. -/
theorem C10_dedup_skip_is_inert (ran fs : List String) (command : String)
    (service_data : List (String × String)) (ty : CmdType) (cmd : String)
    (h1 : pyFormat command service_data = Except.ok cmd)
    (h2 : strMem cmd ran = true) :
    process_enumeration_command ran fs command service_data ty =
      Except.ok { commandsRan := ran, executed := none, patternScan := none,
                  secondary := none } := by
  unfold process_enumeration_command
  rw [h1]
  show Except.ok (pec_core ran fs cmd ty) = _
  rw [pec_core_of_mem ran fs cmd ty h2]

/-- Witness for C10 at a concrete secondary command seen twice. -/
theorem C10_witness :
    process_enumeration_command ["probe 10.0.0.1:80"] [] "probe {address}:{port}"
        [("address", "10.0.0.1"), ("port", "80")] CmdType.secondary =
      Except.ok { commandsRan := ["probe 10.0.0.1:80"], executed := none,
                  patternScan := none, secondary := none } :=
  C10_dedup_skip_is_inert ["probe 10.0.0.1:80"] [] "probe {address}:{port}"
    [("address", "10.0.0.1"), ("port", "80")] CmdType.secondary "probe 10.0.0.1:80" rfl rfl

/-- The two brace markers are distinct characters. -/
theorem rbrace_ne_lbrace : ¬ rbrace = lbrace := by decide

/-- If the scan encounters a replacement field whose name has no context
entry, formatting fails, whatever mode the scan is in. -/
theorem fmtStep_missing_var (ctx : List (String × String)) (p : String)
    (hp : lookupCtx ctx p = none) :
    ∀ (l : List Char) (mode : FmtMode), p ∈ placeholdersStep mode l →
      ∃ e, fmtStep ctx mode l = Except.error e := by
  intro l
  induction l with
  | nil =>
    intro mode h
    cases mode <;> simp [placeholdersStep] at h
  | cons c rest ih =>
    intro mode h
    cases mode with
    | text =>
      by_cases h1 : c = lbrace
      · simp only [placeholdersStep, if_pos h1] at h
        obtain ⟨e, he⟩ := ih FmtMode.sawOpen h
        exact ⟨e, by simp [fmtStep, h1, he]⟩
      · by_cases h2 : c = rbrace
        · simp only [placeholdersStep, if_neg h1, if_pos h2] at h
          obtain ⟨e, he⟩ := ih FmtMode.sawClose h
          exact ⟨e, by simp [fmtStep, h1, h2, he, rbrace_ne_lbrace]⟩
        · simp only [placeholdersStep, if_neg h1, if_neg h2] at h
          obtain ⟨e, he⟩ := ih FmtMode.text h
          exact ⟨e, by simp [fmtStep, h1, h2, he]⟩
    | sawOpen =>
      by_cases h1 : c = lbrace
      · simp only [placeholdersStep, if_pos h1] at h
        obtain ⟨e, he⟩ := ih FmtMode.text h
        exact ⟨e, by simp [fmtStep, h1, he]⟩
      · by_cases h2 : c = rbrace
        · simp only [placeholdersStep, if_neg h1, if_pos h2] at h
          rcases List.mem_cons.mp h with h3 | h3
          · subst h3
            exact ⟨"KeyError: ", by simp [fmtStep, h1, h2, hp, rbrace_ne_lbrace]⟩
          · cases hl : lookupCtx ctx "" with
            | none =>
              exact ⟨"KeyError: ", by simp [fmtStep, h1, h2, hl, rbrace_ne_lbrace]⟩
            | some v =>
              obtain ⟨e, he⟩ := ih FmtMode.text h3
              exact ⟨e, by simp [fmtStep, h1, h2, hl, he, rbrace_ne_lbrace]⟩
        · simp only [placeholdersStep, if_neg h1, if_neg h2] at h
          obtain ⟨e, he⟩ := ih (FmtMode.field [c]) h
          exact ⟨e, by simp [fmtStep, h1, h2, he]⟩
    | sawClose =>
      by_cases h1 : c = rbrace
      · simp only [placeholdersStep, if_pos h1] at h
        obtain ⟨e, he⟩ := ih FmtMode.text h
        exact ⟨e, by simp [fmtStep, h1, he]⟩
      · simp [placeholdersStep, if_neg h1] at h
    | field acc =>
      by_cases h1 : c = rbrace
      · simp only [placeholdersStep, if_pos h1] at h
        rcases List.mem_cons.mp h with h3 | h3
        · subst h3
          exact ⟨"KeyError: " ++ String.mk acc.reverse,
                 by simp [fmtStep, h1, hp]⟩
        · cases hl : lookupCtx ctx (String.mk acc.reverse) with
          | none =>
            exact ⟨"KeyError: " ++ String.mk acc.reverse, by simp [fmtStep, h1, hl]⟩
          | some v =>
            obtain ⟨e, he⟩ := ih FmtMode.text h3
            exact ⟨e, by simp [fmtStep, h1, hl, he]⟩
      · by_cases h2 : c = lbrace
        · simp [placeholdersStep, if_neg h1, if_pos h2] at h
        · simp only [placeholdersStep, if_neg h1, if_neg h2] at h
          obtain ⟨e, he⟩ := ih (FmtMode.field (c :: acc)) h
          exact ⟨e, by simp [fmtStep, h1, h2, he]⟩

/-- Claim C9: a command template with a placeholder absent from its context
makes its whole unit of work abort with an error — the command is neither
executed in malformed form nor treated as successfully skipped. -/
theorem C9_missing_variable_aborts (ran fs : List String) (command : String)
    (service_data : List (String × String)) (ty : CmdType) (p : String)
    (h1 : p ∈ placeholders command) (h2 : lookupCtx service_data p = none) :
    ∃ e, process_enumeration_command ran fs command service_data ty = Except.error e := by
  obtain ⟨e, he⟩ := fmtStep_missing_var service_data p h2 command.data FmtMode.text h1
  exact ⟨e, by simp [process_enumeration_command, pyFormat, he]⟩

/-- Witness for C9: a secondary probe whose context lacks the port. -/
theorem C9_witness :
    ∃ e, process_enumeration_command [] [] "probe {address}:{port}"
      [("address", "10.0.0.1")] CmdType.secondary = Except.error e :=
  C9_missing_variable_aborts [] [] "probe {address}:{port}" [("address", "10.0.0.1")]
    CmdType.secondary "port"
    (by rw [show placeholders "probe {address}:{port}" = ["address", "port"] from rfl]
        exact List.mem_cons_of_mem _ (List.mem_cons_self _ _))
    rfl

/-- A description printed for a file was not in the already-shown set. -/
theorem printedForFile_not_mem_shown :
    ∀ (ds shown : List String) (d : String), d ∈ printedForFile shown ds → ¬ d ∈ shown := by
  intro ds
  induction ds with
  | nil => intro shown d h; simp [printedForFile] at h
  | cons a t ih =>
    intro shown d h hmem
    cases hc : strMem a shown with
    | true =>
      rw [printedForFile, if_pos hc] at h
      exact ih shown d h hmem
    | false =>
      rw [printedForFile, if_neg (by simp [hc])] at h
      rcases List.mem_cons.mp h with h3 | h3
      · subst h3
        exact strMem_false_not_mem d shown hc hmem
      · exact ih (a :: shown) d h3 (List.mem_cons_of_mem a hmem)

/-- The descriptions printed for one file are pairwise distinct. -/
theorem printedForFile_nodup :
    ∀ (ds shown : List String), (printedForFile shown ds).Nodup := by
  intro ds
  induction ds with
  | nil => intro shown; simp [printedForFile]
  | cons a t ih =>
    intro shown
    cases hc : strMem a shown with
    | true => rw [printedForFile, if_pos hc]; exact ih shown
    | false =>
      rw [printedForFile, if_neg (by simp [hc])]
      refine List.nodup_cons.mpr ⟨?_, ih (a :: shown)⟩
      intro hmem
      exact printedForFile_not_mem_shown t (a :: shown) a hmem (List.mem_cons_self a shown)

/-- The shown set after a file holds exactly the old set plus that file's
printed descriptions. -/
theorem mem_shownAfter :
    ∀ (ds shown : List String) (x : String),
      x ∈ shownAfter shown ds ↔ x ∈ shown ∨ x ∈ printedForFile shown ds := by
  intro ds
  induction ds with
  | nil => intro shown x; simp [shownAfter, printedForFile]
  | cons a t ih =>
    intro shown x
    cases hc : strMem a shown with
    | true =>
      rw [shownAfter, if_pos hc, printedForFile, if_pos hc]
      exact ih shown x
    | false =>
      rw [shownAfter, if_neg (by simp [hc]), printedForFile, if_neg (by simp [hc])]
      rw [ih (a :: shown) x]
      simp [List.mem_cons]
      tauto

/-- No description printed by the rest of the rewrite was already shown. -/
theorem allPrintedDescs_go_not_mem_shown :
    ∀ (pm : List (String × List String)) (shown : List String) (d : String),
      d ∈ allPrintedDescs (log_recorded_patterns_go shown pm) → ¬ d ∈ shown := by
  intro pm
  induction pm with
  | nil => intro shown d h; simp [log_recorded_patterns_go, allPrintedDescs] at h
  | cons b rest ih =>
    intro shown d h hmem
    obtain ⟨file, ds⟩ := b
    by_cases he : (printedForFile shown ds).isEmpty = true
    · rw [log_recorded_patterns_go, if_pos he] at h
      exact ih (shownAfter shown ds) d h ((mem_shownAfter ds shown d).mpr (Or.inl hmem))
    · rw [log_recorded_patterns_go, if_neg he] at h
      rw [allPrintedDescs] at h
      rcases List.mem_append.mp h with h3 | h3
      · exact printedForFile_not_mem_shown ds shown d h3 hmem
      · exact ih (shownAfter shown ds) d h3 ((mem_shownAfter ds shown d).mpr (Or.inl hmem))

/-- The descriptions of a whole rewrite are pairwise distinct. -/
theorem allPrintedDescs_go_nodup :
    ∀ (pm : List (String × List String)) (shown : List String),
      (allPrintedDescs (log_recorded_patterns_go shown pm)).Nodup := by
  intro pm
  induction pm with
  | nil => intro shown; simp [log_recorded_patterns_go, allPrintedDescs]
  | cons b rest ih =>
    intro shown
    obtain ⟨file, ds⟩ := b
    by_cases he : (printedForFile shown ds).isEmpty = true
    · rw [log_recorded_patterns_go, if_pos he]
      exact ih (shownAfter shown ds)
    · rw [log_recorded_patterns_go, if_neg he, allPrintedDescs]
      refine List.Nodup.append (printedForFile_nodup ds shown) (ih (shownAfter shown ds)) ?_
      intro d hd1 hd2
      exact allPrintedDescs_go_not_mem_shown rest (shownAfter shown ds) d hd2
        ((mem_shownAfter ds shown d).mpr (Or.inr hd1))

/-- Every block a rewrite emits carries at least one description. -/
theorem log_recorded_patterns_go_blocks_nonempty :
    ∀ (pm : List (String × List String)) (shown : List String),
      (log_recorded_patterns_go shown pm).all (fun b => !(b.2.isEmpty)) = true := by
  intro pm
  induction pm with
  | nil => intro shown; simp [log_recorded_patterns_go]
  | cons b rest ih =>
    intro shown
    obtain ⟨file, ds⟩ := b
    by_cases he : (printedForFile shown ds).isEmpty = true
    · rw [log_recorded_patterns_go, if_pos he]
      exact ih (shownAfter shown ds)
    · rw [log_recorded_patterns_go, if_neg he]
      rw [List.all_cons]
      have h2 : (!(printedForFile shown ds).isEmpty) = true := by
        cases hq : (printedForFile shown ds).isEmpty
        · rfl
        · exact absurd hq he
      simp only [h2, Bool.true_and]
      exact ih (shownAfter shown ds)

/-- Claim C4: across one whole rewrite of the pattern log, each finding
description appears at most once (the printed descriptions are pairwise
distinct), and a file block is written only when it contributes at least
one not-yet-printed description. -/
theorem C4_pattern_log_rewrite_dedup (pattern_matches : List (String × List String)) :
    (allPrintedDescs (log_recorded_patterns pattern_matches)).Nodup ∧
    (log_recorded_patterns pattern_matches).all (fun b => !(b.2.isEmpty)) = true := by
  unfold log_recorded_patterns
  by_cases h : pattern_matches.isEmpty = true
  · rw [if_pos h]
    exact ⟨List.nodup_nil, rfl⟩
  · rw [if_neg h]
    exact ⟨allPrintedDescs_go_nodup pattern_matches [],
           log_recorded_patterns_go_blocks_nonempty pattern_matches []⟩

/-- Claim C5 (code evaluated at the failing input): a pattern whose regex
matches inside a line has its description rendered with the entire lowered
line bound to the `match` placeholder — `extract_matching_string` returns
`match.string`, the whole searched text — not with the matched substring
"anonymous", contradicting the function's own docstring ("Extracts the
string which matches regex within a text"). -/
theorem C5_match_placeholder_gets_whole_line :
    record_pattern_matches [] [] "ftp.txt" ["230 Anonymous FTP login allowed"]
        [{ description := "Anonymous FTP allowed: {match}", pattern := "anonymous" }]
        [("port", "21")] =
      Except.ok [("ftp.txt", ["Anonymous FTP allowed: 230 anonymous ftp login allowed"])] ∧
    ("Anonymous FTP allowed: 230 anonymous ftp login allowed" : String) ≠
      "Anonymous FTP allowed: anonymous" := by
  exact ⟨rfl, by decide⟩

/-- Counterexample to claim C6: one manual-steps recording event on a log
whose prior content is "STALE" leaves that prior content in place and
appends the new block after it — an append, not the truncate-and-rewrite
the claim asserts (a full rewrite would not start with the stale prior
content). -/
theorem C6_counterexample :
    log_manual_steps "STALE" [] [{ description := "d", commands := ["c"] }] [] =
      Except.ok ("STALE[*] d\n\tc\n\n\n", ["c"]) ∧
    ("STALE[*] d\n\tc\n\n\n" : String) ≠ "[*] d\n\tc\n\n\n" := by
  exact ⟨rfl, by decide⟩

/-- Claim C6 as amended: every manual-steps recording event appends what it
writes to the existing log content (the log is cleared once at engine
initialization and opened in append mode afterwards), unlike the
detected-services and pattern logs, which are rewritten in full from
current state on each recording event. -/
theorem C6_amended_manual_log_appends (log_content : String) (s : List String)
    (ms : List ManualScan) (sd : List (String × String)) :
    (∃ e, log_manual_steps log_content s ms sd = Except.error e) ∨
    (∃ w s2, log_manual_steps log_content s ms sd = Except.ok (log_content ++ w, s2)) := by
  unfold log_manual_steps
  cases h : log_manual_steps_go s sd ms with
  | error e => exact Or.inl ⟨e, rfl⟩
  | ok p =>
    obtain ⟨w, s2⟩ := p
    exact Or.inr ⟨w, s2, rfl⟩

/-- Projection of the `secure` entry of the service context. -/
theorem lookup_secure (cfg : HostConfig) (port : PortTag) :
    lookupCtx (build_service_scan_data cfg port) "secure" =
      some (if tag_contains port.service "ssl" || tag_contains port.service "tls"
            then "True" else "False") := rfl

/-- Projection of the `scheme` entry of the service context. -/
theorem lookup_scheme (cfg : HostConfig) (port : PortTag) :
    lookupCtx (build_service_scan_data cfg port) "scheme" =
      some (if tag_contains port.service "https" || tag_contains port.service "ssl" ||
               tag_contains port.service "tls"
            then "https" else "http") := rfl

/-- Counterexample to claim C7: a service element whose contents signal
"https" but neither "ssl" nor "tls" gets scheme "https" with secure False,
so scheme is not "https" exactly when secure is true. -/
theorem C7_counterexample :
    lookupCtx (build_service_scan_data
      { nmap_extra := "-Pn", scan_directory := "scans", address := "10.0.0.1",
        username_wordlist := "u.txt", password_wordlist := "p.txt" }
      { portid := "8443", protocol := "tcp", state := "open",
        service := { name := "http", contents := ["https"] } }) "secure" = some "False" ∧
    lookupCtx (build_service_scan_data
      { nmap_extra := "-Pn", scan_directory := "scans", address := "10.0.0.1",
        username_wordlist := "u.txt", password_wordlist := "p.txt" }
      { portid := "8443", protocol := "tcp", state := "open",
        service := { name := "http", contents := ["https"] } }) "scheme" = some "https" :=
  ⟨rfl, rfl⟩

/-- Claim C7 as amended: `secure` is true exactly when the service element
signals ssl or tls, while `scheme` is "https" exactly when it signals
https, ssl or tls; hence secure = true implies scheme = "https", but not
conversely. -/
theorem C7_amended_secure_scheme (cfg : HostConfig) (port : PortTag) :
    (lookupCtx (build_service_scan_data cfg port) "secure" = some "True" ↔
      (tag_contains port.service "ssl" || tag_contains port.service "tls") = true) ∧
    (lookupCtx (build_service_scan_data cfg port) "scheme" = some "https" ↔
      (tag_contains port.service "https" || tag_contains port.service "ssl" ||
        tag_contains port.service "tls") = true) ∧
    (lookupCtx (build_service_scan_data cfg port) "secure" = some "True" →
      lookupCtx (build_service_scan_data cfg port) "scheme" = some "https") := by
  rw [lookup_secure, lookup_scheme]
  cases h1 : tag_contains port.service "ssl" <;>
    cases h2 : tag_contains port.service "tls" <;>
      cases h3 : tag_contains port.service "https" <;> decide

/-- Witness for C7 at a concrete ssl-tunnelled service. -/
theorem C7_witness :
    lookupCtx (build_service_scan_data
      { nmap_extra := "-Pn", scan_directory := "scans", address := "10.0.0.1",
        username_wordlist := "u.txt", password_wordlist := "p.txt" }
      { portid := "443", protocol := "tcp", state := "open",
        service := { name := "http", contents := ["ssl"] } }) "scheme" = some "https" :=
  (C7_amended_secure_scheme
    { nmap_extra := "-Pn", scan_directory := "scans", address := "10.0.0.1",
      username_wordlist := "u.txt", password_wordlist := "p.txt" }
    { portid := "443", protocol := "tcp", state := "open",
      service := { name := "http", contents := ["ssl"] } }).2.2 rfl

/-- The element just added is in the set. -/
theorem mem_setAdd_self (s : List String) (x : String) : x ∈ setAdd s x := by
  unfold setAdd
  cases h : strMem x s
  · simp
  · simp [(strMem_iff x s).mp h]

/-- Adding preserves membership. -/
theorem mem_setAdd_of_mem (s : List String) (x y : String) (h : y ∈ s) : y ∈ setAdd s x := by
  unfold setAdd
  cases strMem x s <;> simp [h]

/-- Anything in the detected set stays there through the port loop. -/
theorem mem_secondary_enumerate_detected (ports : List PortTag) :
    ∀ (detected : List String) (x : String), x ∈ detected →
      x ∈ secondary_enumerate_detected detected ports := by
  induction ports with
  | nil => intro d x h; simpa [secondary_enumerate_detected] using h
  | cons p rest ih =>
    intro d x h
    by_cases hs : p.state = "closed"
    · rw [secondary_enumerate_detected, if_pos hs]
      exact ih d x h
    · rw [secondary_enumerate_detected, if_neg hs]
      exact ih _ x (mem_setAdd_of_mem _ _ _ h)

/-- The entry of every non-closed port of the loop ends up in the detected
set. -/
theorem entry_mem_detected (p : PortTag) (h2 : ¬ p.state = "closed") :
    ∀ (ports : List PortTag), p ∈ ports →
      ∀ detected, detected_service_entry p ∈ secondary_enumerate_detected detected ports := by
  intro ports
  induction ports with
  | nil => intro hp; cases hp
  | cons q rest ih =>
    intro hp detected
    rcases List.mem_cons.mp hp with h | h
    · subst h
      rw [secondary_enumerate_detected, if_neg h2]
      exact mem_secondary_enumerate_detected rest _ _ (mem_setAdd_self _ _)
    · by_cases hs : q.state = "closed"
      · rw [secondary_enumerate_detected, if_pos hs]
        exact ih h detected
      · rw [secondary_enumerate_detected, if_neg hs]
        exact ih h _

/-- Counterexample to claim C8: the entry recorded for an open port 80/tcp
running http is "[*] 80/tcp: http    (open)" — with a "[*] " prefix and
four spaces before the parenthesized state — not the claimed
"80/tcp: http (open)". -/
theorem C8_counterexample :
    detected_service_entry
      { portid := "80", protocol := "tcp", state := "open",
        service := { name := "http", contents := [] } } = "[*] 80/tcp: http    (open)" ∧
    detected_service_entry
      { portid := "80", protocol := "tcp", state := "open",
        service := { name := "http", contents := [] } } ≠ "80/tcp: http (open)" := by
  exact ⟨rfl, by decide⟩

/-- Claim C8 as amended: for every non-closed port entry processed by the
port loop, the Detected Service entry recorded is exactly
"[*] <port>/<protocol>: <name>    (<state>)" (a "[*] " prefix and four
spaces before the parenthesized state), and that exact string is in the
detected-services set afterwards. -/
theorem C8_amended_detected_entry (detected : List String) (ports : List PortTag)
    (p : PortTag) (h1 : p ∈ ports) (h2 : p.state ≠ "closed") :
    detected_service_entry p =
      "[*] " ++ p.portid ++ "/" ++ p.protocol ++ ": " ++ p.service.name ++
        "    (" ++ p.state ++ ")" ∧
    ("[*] " ++ p.portid ++ "/" ++ p.protocol ++ ": " ++ p.service.name ++
        "    (" ++ p.state ++ ")") ∈ secondary_enumerate_detected detected ports := by
  refine ⟨rfl, ?_⟩
  exact entry_mem_detected p h2 ports h1 detected

/-- Witness for C8 at the spec's 80/tcp http open scenario. -/
theorem C8_witness :
    ("[*] " ++ "80" ++ "/" ++ "tcp" ++ ": " ++ "http" ++ "    (" ++ "open" ++ ")") ∈
      secondary_enumerate_detected []
        [{ portid := "80", protocol := "tcp", state := "open",
           service := { name := "http", contents := [] } }] :=
  (C8_amended_detected_entry []
    [{ portid := "80", protocol := "tcp", state := "open",
       service := { name := "http", contents := [] } }]
    { portid := "80", protocol := "tcp", state := "open",
      service := { name := "http", contents := [] } }
    (List.mem_cons_self _ _) (by decide)).2
